import Mathlib

/-!
Verification development for the dual-stream saliency network in
`new_networks/conformer.py`.  The Python modules are shallowly embedded:

* a provenance model of the lists built by `Conformer.forward`
  (which tensor each list entry comes from);
* a shape model of every convolution / pooling / transposed-convolution /
  reshape step of the full `JL_DCF.forward` pipeline, with `Option`
  capturing PyTorch runtime shape errors;
* a real-valued model of the softmax / sigmoid arithmetic used by the
  LDE and GDE layers;
* a map model of the partial weight loading and an `Except` model of the
  constructor-time configuration checks.
-/

namespace Conformer

/-! ## Provenance model of `Conformer.forward` (conformer.py lines 422-466)

`Conformer.forward` builds `conv_features` and `tran_features` by appending:
`conv_features`: `x_base` (stem), `x` after `conv_1` (stage 1), then one
entry per loop stage `i = 2 .. fin_stage - 1`.
`tran_features`: `y_base` (the stem feature map of the second stream),
`y_t` right after `trans_patch_conv` (patch tokens, before the aggregate
token is concatenated and before `trans_1` runs), `y_t` after `trans_1`
(stage 1), then one entry per loop stage.
Each entry is tagged with the producing computation. -/

/-- Tag describing which computation of `Conformer.forward` produced a
list entry. -/
inductive Feat where
  /-- `x_base`: stem output of the first stream. -/
  | stemX : Feat
  /-- `y_base`: stem output of the second stream (a 4-D feature map). -/
  | stemY : Feat
  /-- Convolutional output of stage `i` (stage 1 is `conv_1`). -/
  | convStage : Nat → Feat
  /-- `y_t` after `trans_patch_conv`, before the aggregate token and
  before any transformer block. -/
  | patchTokens : Feat
  /-- Token sequence after the transformer block of stage `i`
  (stage 1 is `trans_1`). -/
  | tokStage : Nat → Feat
deriving DecidableEq, Repr

/-- `fin_stage` as computed in `Conformer.__init__`:
`depth // 3 + 1` plus `depth // 3` twice. -/
def finStage (depth : Nat) : Nat := depth / 3 + 1 + depth / 3 + depth / 3

/-- The `conv_features` list built by `Conformer.forward`:
stem, stage 1, then stages `2 .. fin_stage - 1`. -/
def convFeats (depth : Nat) : List Feat :=
  Feat.stemX :: Feat.convStage 1 ::
    (List.range' 2 (finStage depth - 2)).map Feat.convStage

/-- The `tran_features` list built by `Conformer.forward`:
stem map of the second stream, the pre-attention patch tokens, stage 1,
then stages `2 .. fin_stage - 1`. -/
def tranFeats (depth : Nat) : List Feat :=
  Feat.stemY :: Feat.patchTokens :: Feat.tokStage 1 ::
    (List.range' 2 (finStage depth - 2)).map Feat.tokStage

/-- The first argument `x[12]` that `JL_DCF.forward` (line 649) passes to
`CoarseLayer.forward`, resolved in the provenance model. -/
def jlDcfCoarseConvArg : Option Feat := (convFeats 12)[12]?

/-- The second argument `y[12]` that `JL_DCF.forward` (line 649) passes to
`CoarseLayer.forward`, resolved in the provenance model. -/
def jlDcfCoarseTokArg : Option Feat := (tranFeats 12)[12]?

end Conformer

namespace Conformer

/-- Indexing `List.range'` with step 1. -/
theorem range'_one_getElem? (s n i : Nat) (h : i < n) :
    (List.range' s n 1)[i]? = some (s + i) := by
  have := List.getElem?_range' s 1 h
  simpa using this

/-- C1 counterexample: at the reference depth 12 the two lists do not have
equal length.  `conv_features` has 13 entries but `tran_features` has 14
(the extra entry is the pre-attention patch embedding), so the claimed
invariant "equal length, equal to 1 + stage count" is false. -/
theorem c1_counterexample :
    (convFeats 12).length = 13 ∧ (tranFeats 12).length = 14 ∧
      (convFeats 12).length ≠ (tranFeats 12).length := by
  refine ⟨by decide, by decide, by decide⟩

/-- C1 (amended): for any configured depth that passes the constructor
check (`depth % 3 = 0`, `0 < depth`), `conv_features` has `depth + 1`
entries while `tran_features` has `depth + 2`; entry `i` of the conv list
is stage `i`'s feature map (`1 ≤ i ≤ depth`), whereas entry `i` of the
token list is stage `i - 1`'s token sequence (`2 ≤ i ≤ depth + 1`), the
extra entry at index 1 being the pre-attention patch embedding.  The two
lists are therefore not positionally aligned by stage index. -/
theorem c1_amended (depth : Nat) (h3 : depth % 3 = 0) (hd : 0 < depth) :
    (convFeats depth).length = depth + 1 ∧
    (tranFeats depth).length = depth + 2 ∧
    (convFeats depth)[0]? = some Feat.stemX ∧
    (tranFeats depth)[0]? = some Feat.stemY ∧
    (tranFeats depth)[1]? = some Feat.patchTokens ∧
    (∀ i, 1 ≤ i → i ≤ depth →
      (convFeats depth)[i]? = some (Feat.convStage i)) ∧
    (∀ i, 2 ≤ i → i ≤ depth + 1 →
      (tranFeats depth)[i]? = some (Feat.tokStage (i - 1))) := by
  have hfin : finStage depth = depth + 1 := by
    unfold finStage
    omega
  refine ⟨?_, ?_, rfl, rfl, rfl, ?_, ?_⟩
  · simp only [convFeats, List.length_cons, List.length_map,
      List.length_range', hfin]
    omega
  · simp only [tranFeats, List.length_cons, List.length_map,
      List.length_range', hfin]
    omega
  · intro i h1 h2
    match i, h1, h2 with
    | 1, _, _ => simp [convFeats]
    | (j + 2), _, h2 =>
      have hj : j < finStage depth - 2 := by rw [hfin]; omega
      simp only [convFeats, List.getElem?_cons_succ, List.getElem?_map,
        range'_one_getElem? _ _ _ hj, Option.map_some']
      rw [Nat.add_comm 2 j]
  · intro i h1 h2
    obtain ⟨j, rfl⟩ : ∃ j, i = j + 2 := ⟨i - 2, by omega⟩
    cases j with
    | zero => simp [tranFeats]
    | succ m =>
      have hm : m < finStage depth - 2 := by rw [hfin]; omega
      simp only [tranFeats, List.getElem?_cons_succ, List.getElem?_map,
        range'_one_getElem? _ _ _ hm, Option.map_some']
      have hidx : m + 1 + 2 - 1 = 2 + m := by omega
      rw [hidx]

/-- C1 witness: the amended statement instantiated at the reference depth
12 and at the mid-depth index 5: the conv entry at 5 is stage 5 while the
token entry at 5 is stage 4. -/
theorem c1_amended_witness :
    (convFeats 12).length = 12 + 1 ∧
    (tranFeats 12).length = 12 + 2 ∧
    (convFeats 12)[5]? = some (Feat.convStage 5) ∧
    (tranFeats 12)[5]? = some (Feat.tokStage 4) := by
  have h := c1_amended 12 rfl (by decide)
  exact ⟨h.1, h.2.1, h.2.2.2.2.2.1 5 (by decide) (by decide),
    h.2.2.2.2.2.2 5 (by decide) (by decide)⟩

end Conformer

namespace Conformer

/-! ## Shape model of the forward pipeline

Per-sample tensor shapes are tracked through every operation of
`JL_DCF.forward` (conformer.py lines 646-654) and its sub-layers.
`Option` models PyTorch runtime shape errors (channel mismatches,
too-small inputs, reshape / broadcast failures).  Every operation of the
pipeline acts independently along the batch dimension (convolutions,
pools and activations act per sample, element-wise operations and the
token reshapes preserve dim 0, and the GDE accumulators are allocated
with the coarse map's batch size `coarse_sal_rgb.size(0)`), so the batch
dimension of every intermediate equals the input batch size; `dims4`
below re-attaches it. -/

/-- Per-sample shape of a 4-D tensor `[batch, channel, height, width]`. -/
structure SA where
  c : Nat
  h : Nat
  w : Nat
deriving DecidableEq, Repr

/-- Per-sample shape of a 3-D token tensor
`[batch, num_tokens, embed_dim]`. -/
structure ST where
  n : Nat
  c : Nat
deriving DecidableEq, Repr

/-- Per-sample shape of a per-stage attention query/key/value tensor
`[batch, heads, num_tokens, head_dim]`. -/
structure QS where
  hds : Nat
  n : Nat
  d : Nat
deriving DecidableEq, Repr

/-- The full dimension list `[B, C, H, W]` of a per-sample shape at batch
size `B`: since every pipeline operation preserves the batch dimension,
the batch size of every intermediate equals that of the input. -/
def dims4 (B : Nat) (s : SA) : List Nat := [B, s.c, s.h, s.w]

/-- Output shape of `nn.Conv2d(cin, cout, k, s, p)` (dilation 1):
`out = (in + 2p - k) / s + 1`, defined when the channel count matches and
the padded input is at least the kernel. -/
def conv2dShape (cin cout k s p : Nat) (x : SA) : Option SA :=
  if x.c = cin ∧ k ≤ x.h + 2 * p ∧ k ≤ x.w + 2 * p then
    some ⟨cout, (x.h + 2 * p - k) / s + 1, (x.w + 2 * p - k) / s + 1⟩
  else none

/-- Output shape of `nn.MaxPool2d(k, s, p)` (floor mode). -/
def maxPool2dShape (k s p : Nat) (x : SA) : Option SA :=
  if k ≤ x.h + 2 * p ∧ k ≤ x.w + 2 * p then
    some ⟨x.c, (x.h + 2 * p - k) / s + 1, (x.w + 2 * p - k) / s + 1⟩
  else none

/-- Output shape of `nn.AvgPool2d(k, s)` (padding 0). -/
def avgPool2dShape (k s : Nat) (x : SA) : Option SA :=
  if k ≤ x.h ∧ k ≤ x.w then
    some ⟨x.c, (x.h - k) / s + 1, (x.w - k) / s + 1⟩
  else none

/-- Output shape of `nn.ConvTranspose2d(cin, cout, k, s, p, op)`
(dilation 1): `out = (in - 1)s - 2p + (k - 1) + op + 1`, defined on
non-empty inputs producing a non-empty output. -/
def convTranspose2dShape (cin cout k s p op : Nat) (x : SA) : Option SA :=
  if x.c = cin ∧ 0 < x.h ∧ 0 < x.w ∧
      2 * p < (x.h - 1) * s + k + op ∧ 2 * p < (x.w - 1) * s + k + op then
    some ⟨cout, (x.h - 1) * s + k + op - 2 * p,
      (x.w - 1) * s + k + op - 2 * p⟩
  else none

/-- Shape of an element-wise binary operation (`+`, `*`, in-place `+=`)
between two 4-D tensors of one forward call: channel and spatial
dimensions must agree (the batch dimension is shared by construction). -/
def binShape (x y : SA) : Option SA :=
  if x.c = y.c ∧ x.h = y.h ∧ x.w = y.w then some x else none

/-- Shape of an element-wise binary operation between token tensors. -/
def tokBinShape (x y : ST) : Option ST :=
  if x.n = y.n ∧ x.c = y.c then some x else none

/-- Shape effect of `.flatten(2).transpose(1, 2)` on a 4-D tensor. -/
def flattenTranspose (x : SA) : ST := ⟨x.h * x.w, x.c⟩

/-- Shape effect of `torch.cat([xt[:, 0][:, None, :], seq], dim=1)`
(prepend the aggregate-token slot of `xt` to `seq`), as used by
`FCUDown.forward` and `LDELayer.forward`. -/
def catClsShape (seq xt : ST) : Option ST :=
  if xt.c = seq.c ∧ 1 ≤ xt.n then some ⟨seq.n + 1, seq.c⟩ else none

/-- Shape effect of `y[:, 1:].transpose(1, 2).unflatten(2, (gh, gw))`
(also covers the equivalent `.reshape(B, C, gh, gw)`): drops the
aggregate token and reinterprets the remaining tokens as a `gh × gw`
grid, defined only when the token count matches exactly. -/
def unflattenTokShape (gh gw : Nat) (y : ST) : Option SA :=
  if 1 ≤ y.n ∧ y.n - 1 = gh * gw then some ⟨y.c, gh, gw⟩ else none

/-- Shape of the tensors kept by a transformer `Block` (the token shape is
preserved; the embedding width must match the block dimension). -/
def blockShape (embed : Nat) (xt : ST) : Option ST :=
  if xt.c = embed then some xt else none

/-- Shape of the q/k/v tensors produced by `Attention.forward`:
`qkv.reshape(B, N, 3, heads, C // heads)` requires the head count to
divide the embedding width. -/
def qkvShape (embed heads : Nat) (xt : ST) : Option QS :=
  if xt.c = embed ∧ embed % heads = 0 then
    some ⟨heads, xt.n, embed / heads⟩
  else none

/-- Shape of `ConvBlock.forward` (conformer.py lines 109-142): bottleneck
`1×1 → 3×3(stride) → 1×1` with `med_planes = cout / 4`, the optional
`x_t` summand added after `conv1`, and the (projected or identity)
residual added at the end.  Returns the pair `(out, x2)`. -/
def convBlockShape (cin cout : Nat) (resConv : Bool) (s : Nat)
    (x : SA) (xt : Option SA) : Option (SA × SA) := do
  let a ← conv2dShape cin (cout / 4) 1 1 0 x
  let a2 ← match xt with
    | some t => binShape a t
    | none => some a
  let x2 ← conv2dShape (cout / 4) (cout / 4) 3 s 1 a2
  let m ← conv2dShape (cout / 4) cout 1 1 0 x2
  let r ← if resConv then conv2dShape cin cout 1 s 0 x else
    if cin = cout ∧ s = 1 then some x else none
  let out ← binShape m r
  some (out, x2)

/-- Shape of `FCUDown.forward` (lines 160-169): 1×1 projection to the
embedding width, average pooling by the down-sampling stride, flatten and
transpose to a sequence, and concatenation with the aggregate-token slot
of the incoming token sequence. -/
def fcuDownShape (cin embed dw : Nat) (x : SA) (xt : ST) : Option ST := do
  let p ← conv2dShape cin embed 1 1 0 x
  let pl ← avgPool2dShape dw dw p
  catClsShape (flattenTranspose pl) xt

/-- Shape of `FCUUp.forward` (lines 185-191): drop the aggregate token,
reshape to the `gh × gw` grid, 1×1 projection, and interpolation to
`(gh * dw, gw * dw)`. -/
def fcuUpShape (embed cout dw : Nat) (xt : ST) (gh gw : Nat) : Option SA := do
  let r ← unflattenTokShape gh gw xt
  let pr ← conv2dShape embed cout 1 1 0 r
  some ⟨pr.c, gh * dw, gw * dw⟩

/-- Per-stage configuration of a `ConvTransBlock`, as instantiated by the
three stage-group loops of `Conformer.__init__` (lines 346-394). -/
structure StageCfg where
  cin : Nat
  cout : Nat
  resConv : Bool
  stride : Nat
  dw : Nat
  lastFusion : Bool
deriving DecidableEq, Repr

/-- Shape of `ConvTransBlock.forward` (lines 289-307): CNN bottleneck,
conv→token squeeze, residual token merge, transformer block (emitting the
q/k/v shape), token→conv expansion, and the fusion `ConvBlock` (stride 2
with projected residual when `last_fusion`). -/
def convTransShape (embed heads : Nat) (cfg : StageCfg)
    (x : SA) (xt : ST) : Option (SA × ST × QS) := do
  let (x1, x2) ← convBlockShape cfg.cin cfg.cout cfg.resConv cfg.stride x none
  let xst ← fcuDownShape (cfg.cout / 4) embed cfg.dw x2 xt
  let xsum ← tokBinShape xst xt
  let xt2 ← blockShape embed xsum
  let q ← qkvShape embed heads xsum
  let xtr ← fcuUpShape embed (cfg.cout / 4) cfg.dw xt2
    (x2.h / cfg.dw) (x2.w / cfg.dw)
  let fs : Nat := if cfg.lastFusion then 2 else 1
  let (xo, _) ← convBlockShape cfg.cout cfg.cout cfg.lastFusion fs x1
    (some xtr)
  some (xo, xt2, q)

/-- The stage configurations created by the three loops of
`Conformer.__init__` for the reference hyper-parameters of `build_model`
(`base_channel=64`, `channel_ratio=4`, `patch_size=16`): channel widths
256 / 512 / 1024, down-sampling strides 4 / 2 / 1, a stride-2 projected
residual at the first stage of groups 2 and 3, and the `last_fusion`
variant at stage `depth`. -/
def stageConfigs (depth : Nat) : List StageCfg :=
  let s1 := 64 * 4
  let s2 := 64 * 4 * 2
  let s3 := 64 * 4 * 2 * 2
  let dw1 := 16 / 4
  let g := depth / 3
  ((List.range' 2 (g - 1)).map fun _ =>
    ⟨s1, s1, false, 1, dw1, false⟩)
  ++ ((List.range' (g + 1) g).map fun i =>
    if i = g + 1 then ⟨s1, s2, true, 2, dw1 / 2, false⟩
    else ⟨s2, s2, false, 1, dw1 / 2, false⟩)
  ++ ((List.range' (2 * g + 1) g).map fun i =>
    ⟨if i = 2 * g + 1 then s2 else s3, s3, i = 2 * g + 1,
      if i = 2 * g + 1 then 2 else 1, dw1 / 4, i = depth⟩)

/-- The three lists accumulated by `Conformer.forward`: conv feature
shapes, token feature shapes (entry 0 is the 4-D stem map of the second
stream, hence the sum type), and q/k/v shapes. -/
structure EncOut where
  convs : List SA
  trans : List (SA ⊕ ST)
  qs : List QS
deriving DecidableEq, Repr

/-- One iteration of the stage loop of `Conformer.forward` (lines
457-464): run the stage and append its outputs to the three lists. -/
def encStep (embed heads : Nat) (st : SA × ST × EncOut) (cfg : StageCfg) :
    Option (SA × ST × EncOut) := do
  let (x, xt, acc) := st
  let (xo, xto, q) ← convTransShape embed heads cfg x xt
  some (xo, xto,
    ⟨acc.convs ++ [xo], acc.trans ++ [Sum.inr xto], acc.qs ++ [q]⟩)

/-- Shape model of `Conformer.forward` (lines 422-466) for the reference
hyper-parameters (`embed_dim=384`, `num_heads=6`): stem, stage 1
(`conv_1`, `trans_patch_conv`, aggregate token, `trans_1`), then the
stage loop. -/
def encoderShape (depth H W : Nat) : Option EncOut := do
  let input : SA := ⟨3, H, W⟩
  let xc ← conv2dShape 3 64 7 2 3 input
  let xbase ← maxPool2dShape 3 2 1 xc
  let yc ← conv2dShape 3 64 7 2 3 input
  let ybase ← maxPool2dShape 3 2 1 yc
  let (x1, _) ← convBlockShape 64 (64 * 4) true 1 xbase none
  let pt ← conv2dShape 64 384 4 4 0 ybase
  let ytok0 := flattenTranspose pt
  let ytok : ST := ⟨ytok0.n + 1, ytok0.c⟩
  let yt1 ← blockShape 384 ytok
  let q1 ← qkvShape 384 6 ytok
  let acc0 : EncOut :=
    ⟨[xbase, x1], [Sum.inl ybase, Sum.inr ytok0, Sum.inr yt1], [q1]⟩
  let (_, _, acc) ←
    (stageConfigs depth).foldlM (encStep 384 6) (x1, yt1, acc0)
  some acc

/-- Extract a token shape from an entry of the heterogeneous
`tran_features` list (indexing a 4-D stem entry where a token tensor is
expected would be a runtime error). -/
def asTok (e : SA ⊕ ST) : Option ST :=
  match e with
  | Sum.inr t => some t
  | Sum.inl _ => none

/-- Shape model of `LDELayer.forward` (lines 500-531) at the fixed stage
index `j = 4`: `conv_c` projection (`Conv2d(256, 384, 1, 1)`),
`pool_avg` (`AvgPool2d(4, 4)`), flatten/transpose, aggregate-token
concatenation, the q/k/v reshape to `[B, N, heads·head_dim]`, the
element-wise softmax-gated product chain, and the `conv_rgb` stack
(`MaxPool2d(3)`, `Conv2d(256, 64, 7, 1, 1)`, `Conv2d(64, 64, 5, 1, 1)`).
Returns the shapes of `(rgb_lde, depth_lde)`. -/
def ldeShape (e : EncOut) : Option (SA × ST) := do
  let x4 ← e.convs[4]?
  let y4e ← e.trans[4]?
  let y4 ← asTok y4e
  let q4 ← e.qs[4]?
  let c1 ← conv2dShape 256 384 1 1 0 x4
  let c2 ← avgPool2dShape 4 4 c1
  let fconv ← catClsShape (flattenTranspose c2) y4
  let qr : ST := ⟨q4.n, q4.hds * q4.d⟩
  let m1 ← tokBinShape qr y4
  let m2 ← tokBinShape m1 qr
  let m3 ← tokBinShape m2 qr
  let dl ← tokBinShape fconv m3
  let r1 ← maxPool2dShape 3 3 0 x4
  let r2 ← conv2dShape 256 64 7 1 1 r1
  let r3 ← conv2dShape 64 64 5 1 1 r2
  some (r3, dl)

/-- Shape model of `CoarseLayer.forward` (lines 540-549): the token
sequence is unflattened to a `(2h, 2w)` grid taken from the feature map's
spatial size, then `conv_r = Conv2d(1024, 1, 1, 1)` and
`conv_d = Conv2d(384, 1, 3, 2, 1)` produce the two coarse maps. -/
def coarseShape (x : SA) (ye : SA ⊕ ST) : Option (SA × SA) := do
  let y ← asTok ye
  let yr ← unflattenTokShape (x.h * 2) (x.w * 2) y
  let sr ← conv2dShape 1024 1 1 1 0 x
  let sd ← conv2dShape 384 1 3 2 1 yr
  some (sr, sd)

/-- Shape model of one iteration of the `GDELayer.forward` stage loop
(lines 570-609) at stage index `j`, threading the four hard-coded
accumulator buffers.  The branch on `rgb_part.size(1) == 1024` selects
the 20×20 ("high") or 40×40 ("medium") regime; the token sequence is
unflattened to the hard-coded 20×20 grid in both. -/
def gdeStep (e : EncOut) (cr cd : SA) (j : Nat)
    (bufs : SA × SA × SA × SA) : Option (SA × SA × SA × SA) := do
  let (rh, rm, dh, dm) := bufs
  let xj ← e.convs[j]?
  let yje ← e.trans[j]?
  let yj ← asTok yje
  if xj.c = 1024 then
    let rp ← conv2dShape 1024 1 1 1 0 xj
    let cr1 ← convTranspose2dShape 1 1 4 2 1 0 cr
    let cd1 ← convTranspose2dShape 1 1 4 2 1 0 cd
    let yr0 ← unflattenTokShape 20 20 yj
    let yr ← conv2dShape 384 1 1 1 0 yr0
    let gr ← binShape cr1 rp
    let rh2 ← binShape rh gr
    let gd ← binShape cd1 yr
    let dh2 ← binShape dh gd
    some (rh2, rm, dh2, dm)
  else
    let rp ← conv2dShape 512 1 1 1 0 xj
    let cr1 ← convTranspose2dShape 1 1 4 4 0 0 cr
    let cd1 ← convTranspose2dShape 1 1 4 4 0 0 cd
    let yr0 ← unflattenTokShape 20 20 yj
    let yr ← convTranspose2dShape 384 1 4 2 1 0 yr0
    let gr ← binShape cr1 rp
    let rm2 ← binShape rm gr
    let gd ← binShape cd1 yr
    let dm2 ← binShape dm gd
    some (rh, rm2, dh, dm2)

/-- Shape model of `GDELayer.forward` (lines 564-613): zero buffers
hard-coded to `[B, 1, 20, 20]` and `[B, 1, 40, 40]`, then the loop
`for j in range(11, 7, -3)`, i.e. `j = 11` followed by `j = 8`. -/
def gdeShape (e : EncOut) (cr cd : SA) : Option (SA × SA × SA × SA) := do
  let bh : SA := ⟨1, 20, 20⟩
  let bm : SA := ⟨1, 40, 40⟩
  let s1 ← gdeStep e cr cd 11 (bh, bm, bh, bm)
  gdeStep e cr cd 8 s1

/-- Shape model of `Decoder.forward` (lines 622-632): sums of the GDE
accumulators, the two learned LDE up-samplings
(`ConvTranspose2d(64, 1, 3, 4, 1, output_padding=3)` and
`ConvTranspose2d(384, 1, 3, 4, 1, output_padding=3)` after the 20×20
unflatten), and the chain of four applications of the shared
`up2 = ConvTranspose2d(1, 1, 4, 2, 1)`.  The unused binding `d` of the
source is kept. -/
def decoderShape (ldeC : SA) (ldeT : ST) (rh rm dh dm : SA) :
    Option (SA × SA × SA × SA) := do
  let salHigh ← binShape rh dh
  let salMed ← binShape rm dm
  let rgbL ← convTranspose2dShape 64 1 3 4 1 3 ldeC
  let _d ← unflattenTokShape 20 20 ldeT
  let dgrid ← unflattenTokShape 20 20 ldeT
  let depthL ← convTranspose2dShape 384 1 3 4 1 3 dgrid
  let salLow ← binShape rgbL depthL
  let u1 ← convTranspose2dShape 1 1 4 2 1 0 salHigh
  let a1 ← binShape salMed u1
  let u2 ← convTranspose2dShape 1 1 4 2 1 0 a1
  let a2 ← binShape salLow u2
  let u3 ← convTranspose2dShape 1 1 4 2 1 0 a2
  let salFinal ← convTranspose2dShape 1 1 4 2 1 0 u3
  some (salFinal, salLow, salMed, salHigh)

/-- Shape model of the whole `JL_DCF.forward` (lines 646-654): encoder,
LDE, coarse layer on `x[12]` and `y[12]`, GDE, decoder.  Returns the
shapes of `(sal_final, sal_low, sal_med, sal_high, coarse_sal_rgb,
coarse_sal_depth)`. -/
def jlDcfShape (H W : Nat) : Option (SA × SA × SA × SA × SA × SA) := do
  let e ← encoderShape 12 H W
  let (ldeC, ldeT) ← ldeShape e
  let x12 ← e.convs[12]?
  let y12 ← e.trans[12]?
  let (cr, cd) ← coarseShape x12 y12
  let (rh, rm, dh, dm) ← gdeShape e cr cd
  let (salFinal, salLow, salMed, salHigh) ←
    decoderShape ldeC ldeT rh rm dh dm
  some (salFinal, salLow, salMed, salHigh, cr, cd)

end Conformer

namespace Conformer

/-- A defined `conv2dShape` output has the configured output channel
count. -/
theorem conv2dShape_some_c (cin cout k s p : Nat) (x y : SA)
    (h : conv2dShape cin cout k s p x = some y) : y.c = cout := by
  unfold conv2dShape at h
  split at h
  · injection h with h2
    rw [← h2]
  · exact Option.noConfusion h

/-- C2 counterexample: 352 is divisible by the encoder's cumulative
stride 32, yet the forward pass at 352×352 fails (the GDE layer
unflattens the 485-token sequence into its hard-coded 20×20 grid), so no
final saliency map is returned at that resolution and the claim, which
quantifies over all stride-divisible resolutions, is false. -/
theorem c2_counterexample :
    352 % 32 = 0 ∧ jlDcfShape 352 352 = none := by
  exact ⟨by decide, by decide⟩

/-- C2 (amended): at the reference resolution 320×320 — the only
resolution compatible with the hard-coded 20×20 / 40×40 grids of the GDE
layer and the decoder — the forward pass succeeds for every batch size
`B`, and the final saliency map then has full shape `[B, 1, 320, 320]`:
exactly one channel and the input height and width. -/
theorem c2_amended (B : Nat) :
    (∃ low med high cr cd,
      jlDcfShape 320 320 = some (⟨1, 320, 320⟩, low, med, high, cr, cd)) ∧
    dims4 B ⟨1, 320, 320⟩ = [B, 1, 320, 320] := by
  exact ⟨⟨⟨1, 80, 80⟩, ⟨1, 40, 40⟩, ⟨1, 20, 20⟩, ⟨1, 10, 10⟩, ⟨1, 10, 10⟩,
    by rfl⟩, rfl⟩

/-- C7 counterexample: at 320×320 the forward pass returns coarse maps of
per-sample shape `(1, 10, 10)` — i.e. `[1, 1, 10, 10]` at batch size 1 —
because the deepest feature map is 10×10 and `conv_r` is a 1×1
convolution, while `conv_d` is a stride-2 convolution on the 20×20 token
grid.  This differs from the claimed `[1, 1, 20, 20]`. -/
theorem c7_counterexample :
    jlDcfShape 320 320 =
      some (⟨1, 320, 320⟩, ⟨1, 80, 80⟩, ⟨1, 40, 40⟩,
        ⟨1, 20, 20⟩, ⟨1, 10, 10⟩, ⟨1, 10, 10⟩) ∧
    dims4 1 ⟨1, 10, 10⟩ ≠ [1, 1, 20, 20] := by
  exact ⟨by rfl, by decide⟩

/-- C7 (amended): for batch size 1 and 320×320 inputs the forward call
returns `final_saliency` of shape `[1, 1, 320, 320]` and `coarse_rgb`,
`coarse_depth` each of shape `[1, 1, 10, 10]`. -/
theorem c7_amended :
    ∃ low med high : SA,
      jlDcfShape 320 320 =
        some (⟨1, 320, 320⟩, low, med, high, ⟨1, 10, 10⟩, ⟨1, 10, 10⟩) ∧
      dims4 1 ⟨1, 320, 320⟩ = [1, 1, 320, 320] ∧
      dims4 1 ⟨1, 10, 10⟩ = [1, 1, 10, 10] := by
  exact ⟨⟨1, 80, 80⟩, ⟨1, 40, 40⟩, ⟨1, 20, 20⟩, by rfl, rfl, rfl⟩

/-- C4 counterexample: the token-sequence argument `y[12]` that
`JL_DCF.forward` hands to the coarse layer is the token output of stage
11, while the deepest stage's token sequence (the last entry of
`tran_features`) is that of stage 12 — so the coarse layer does not
consume the deepest stage's token sequence. -/
theorem c4_counterexample :
    jlDcfCoarseTokArg = some (Feat.tokStage 11) ∧
    (tranFeats 12).getLast? = some (Feat.tokStage 12) ∧
    jlDcfCoarseTokArg ≠ (tranFeats 12).getLast? := by
  exact ⟨by decide, by decide, by decide⟩

/-- C4 (amended): the coarse layer consumes the deepest stage's feature
map (`x[12]` is the last conv entry, stage 12) but the stage-11 token
sequence (`y[12]` is the penultimate token entry, the off-by-one being
the extra patch-embedding entry); and whenever `CoarseLayer.forward`
succeeds it produces exactly one single-channel coarse saliency estimate
per modality. -/
theorem c4_amended :
    jlDcfCoarseConvArg = some (Feat.convStage 12) ∧
    (convFeats 12).getLast? = some (Feat.convStage 12) ∧
    jlDcfCoarseTokArg = some (Feat.tokStage 11) ∧
    (tranFeats 12).getLast? = some (Feat.tokStage 12) ∧
    (∀ x ye sr sd, coarseShape x ye = some (sr, sd) →
      sr.c = 1 ∧ sd.c = 1) := by
  refine ⟨by decide, by decide, by decide, by decide, ?_⟩
  intro x ye sr sd h
  unfold coarseShape at h
  simp only [Option.bind_eq_bind, Option.bind_eq_some, Option.some.injEq,
    Prod.mk.injEq] at h
  obtain ⟨y, hy, yr, hyr, sr2, hsr, sd2, hsd, hpa, hpb⟩ := h
  rw [← hpa, ← hpb]
  exact ⟨conv2dShape_some_c _ _ _ _ _ _ _ hsr,
    conv2dShape_some_c _ _ _ _ _ _ _ hsd⟩

/-- C4 witness: the amended statement's coarse-channel fact applied at
the concrete reference shapes: the deepest 10×10 feature map and the
401-token sequence give 10×10 coarse maps, each with exactly one
channel. -/
theorem c4_amended_witness :
    SA.c ⟨1, 10, 10⟩ = 1 ∧ SA.c ⟨1, 10, 10⟩ = 1 := by
  exact c4_amended.2.2.2.2 ⟨1024, 10, 10⟩ (Sum.inr ⟨401, 384⟩)
    ⟨1, 10, 10⟩ ⟨1, 10, 10⟩ (by rfl)

end Conformer

namespace Conformer

/-! ## Value model of the LDE softmax gating, the GDE sigmoid gate and
the decoder composition -/

/-- A real-valued 3-D tensor `[batch, tokens, embed_dim]` as a function
of its indices. -/
abbrev Ten3 (B T E : Nat) : Type := Fin B → Fin T → Fin E → ℝ

/-- A real-valued 4-D tensor `[batch, channel, height, width]`. -/
abbrev Ten4R (B C H W : Nat) : Type := Fin B → Fin C → Fin H → Fin W → ℝ

/-- `nn.Softmax(dim=1)` on a `[batch, tokens, embed_dim]` tensor, as
instantiated by `LDELayer.__init__` (line 498): the normalization runs
over the token axis. -/
noncomputable def softmaxDim1 {B T E : Nat} (x : Ten3 B T E) : Ten3 B T E :=
  fun b t e => Real.exp (x b t e) / ∑ u : Fin T, Real.exp (x b u e)

/-- Softmax over the embedding axis (dim 2) of a
`[batch, tokens, embed_dim]` tensor; this is the normalization the spec
sentence for C3 describes. -/
noncomputable def softmaxDim2 {B T E : Nat} (x : Ten3 B T E) : Ten3 B T E :=
  fun b t e => Real.exp (x b t e) / ∑ u : Fin E, Real.exp (x b t u)

/-- The depth-branch combination of `LDELayer.forward` (line 525):
`depth_lde = fconv_c * (self.softmax((q[j] * list_y[j]) * k[j]) * v[j])`
with `fconv_c` the projected/pooled conv sequence, `list_y[j]` the token
sequence and `q[j]`, `k[j]`, `v[j]` the reshaped attention arrays, all of
shape `[batch, tokens, embed_dim]`; the softmax is the layer's
`nn.Softmax(dim=1)`. -/
noncomputable def ldeDepthBranch {B T E : Nat} (fc yj qj kj vj : Ten3 B T E) :
    Ten3 B T E :=
  fun b t e =>
    fc b t e * (softmaxDim1 (fun b2 t2 e2 =>
      (qj b2 t2 e2 * yj b2 t2 e2) * kj b2 t2 e2) b t e * vj b t e)

/-- The same combination as described by the spec sentence for C3, with
the softmax normalizing over the embedding axis instead. -/
noncomputable def ldeDepthBranchEmbedAxis {B T E : Nat} (fc yj qj kj vj : Ten3 B T E) :
    Ten3 B T E :=
  fun b t e =>
    fc b t e * (softmaxDim2 (fun b2 t2 e2 =>
      (qj b2 t2 e2 * yj b2 t2 e2) * kj b2 t2 e2) b t e * vj b t e)

/-- All-ones test tensor with one batch element, one token and two
embedding entries. -/
noncomputable def onesT3 : Ten3 1 1 2 := fun _ _ _ => 1

/-- Test tensor whose two embedding entries are 0 and 1. -/
noncomputable def rampT3 : Ten3 1 1 2 := fun _ _ e => (e.val : ℝ)

/-- C3 counterexample: with a single token, the code's softmax (over the
token axis, `dim=1`) is identically 1, so `depth_lde` reduces to
`fconv_c * v`; a softmax over the embedding axis instead mixes the two
embedding entries, giving `1 / (1 + exp 1) ≠ 1` at entry (0,0,0).  The
two readings disagree on this concrete input, refuting the claim that
the softmax normalizes over the embedding axis. -/
theorem c3_counterexample :
    ldeDepthBranch onesT3 rampT3 onesT3 onesT3 onesT3 ≠
      ldeDepthBranchEmbedAxis onesT3 rampT3 onesT3 onesT3 onesT3 := by
  intro hEq
  have h0 := congrFun (congrFun (congrFun hEq 0) 0) 0
  simp only [ldeDepthBranch, ldeDepthBranchEmbedAxis, softmaxDim1,
    softmaxDim2, onesT3, rampT3, one_mul, mul_one, Fin.sum_univ_one,
    Fin.sum_univ_two, Fin.val_zero, Fin.val_one, Nat.cast_zero,
    Nat.cast_one, Real.exp_zero] at h0
  have hpos : (0 : ℝ) < Real.exp 1 := Real.exp_pos 1
  have hne : (1 : ℝ) + Real.exp 1 ≠ 0 := by positivity
  rw [div_self (by norm_num : (1 : ℝ) ≠ 0), eq_comm,
    div_eq_one_iff_eq hne] at h0
  linarith

/-- C3 (amended): the LDE depth-branch output equals the element-wise
product of the projected-conv sequence with
`softmax((q ⊙ TokenSequence) ⊙ k) ⊙ v`, where the softmax normalizes
over the token axis (`dim=1`) of the `[batch, tokens, embed_dim]`
arrays: each entry is divided by the sum of exponentials taken over the
token index at the same batch and embedding position. -/
theorem c3_amended (B T E : Nat) (fc yj qj kj vj : Ten3 B T E)
    (b : Fin B) (t : Fin T) (e : Fin E) :
    ldeDepthBranch fc yj qj kj vj b t e =
      fc b t e *
        (Real.exp ((qj b t e * yj b t e) * kj b t e) /
          (∑ u : Fin T, Real.exp ((qj b u e * yj b u e) * kj b u e)) *
          vj b t e) := by
  rfl

/-- `torch.sigmoid`: `1 / (1 + exp(-x))`. -/
noncomputable def torchSigmoid (x : ℝ) : ℝ := 1 / (1 + Real.exp (-x))

/-- The complement-attention gate of `GDELayer.forward`
(lines 586-587, 590-591, 603-604, 607-608):
`sal = self.sigmoid(coarse1); A = 1 - sal`, element-wise over the
upsampled coarse saliency map. -/
noncomputable def gdeGate {B C H W : Nat} (u : Ten4R B C H W) : Ten4R B C H W :=
  fun b c i j => 1 - torchSigmoid (u b c i j)

/-- C5: for each modality and stage regime the GDE gate equals
`1 - sigmoid(upsampled coarse saliency)` element-wise, and every gate
element lies in `[0, 1]` for arbitrary (finite) real coarse-saliency
inputs. -/
theorem c5_gate (B C H W : Nat) (u : Ten4R B C H W)
    (b : Fin B) (c : Fin C) (i : Fin H) (j : Fin W) :
    gdeGate u b c i j = 1 - torchSigmoid (u b c i j) ∧
    0 ≤ gdeGate u b c i j ∧ gdeGate u b c i j ≤ 1 := by
  have hp : (0 : ℝ) < Real.exp (-(u b c i j)) := Real.exp_pos _
  refine ⟨rfl, ?_, ?_⟩
  · unfold gdeGate torchSigmoid
    have h1 : 1 / (1 + Real.exp (-(u b c i j))) ≤ 1 := by
      rw [div_le_one (by linarith)]
      linarith
    linarith
  · unfold gdeGate torchSigmoid
    have h2 : 0 ≤ 1 / (1 + Real.exp (-(u b c i j))) := by positivity
    linarith

/-- Untyped real tensor for the decoder value model: the decoder's
algebraic claim is about which element-wise sums and which learned
operators are composed, so indices are left unbounded. -/
abbrev TenU : Type := Nat → Nat → Nat → Nat → ℝ

/-- Value model of `Decoder.forward` (lines 622-632): the learned modules
`self.upsample`, `self.upsample1`, `self.up2` and the token-grid reshape
are opaque operators; `up2` is one single module, applied at every
upsampling site of the final composition.  The unused binding `d` of the
source is kept. -/
noncomputable def decoderForward {τ : Type} (upsample upsample1 up2 : TenU → TenU)
    (resh : τ → TenU) (lde_c : TenU) (lde_t : τ)
    (rgb_h rgb_m depth_h depth_m : TenU) : TenU × TenU × TenU × TenU :=
  let sal_high := rgb_h + depth_h
  let sal_med := rgb_m + depth_m
  let rgb_l := upsample lde_c
  let _d := resh lde_t
  let depth_l := upsample1 (resh lde_t)
  let sal_low := rgb_l + depth_l
  let sal_final := up2 (up2 (sal_low + up2 (sal_med + up2 sal_high)))
  (sal_final, sal_low, sal_med, sal_high)

/-- C6: the decoder computes `sal_high = rgb_high + depth_high`,
`sal_medium = rgb_medium + depth_medium`, `sal_low` as the sum of the two
separately upsampled LDE branches, and the final map as
`up(up(sal_low + up(sal_medium + up(sal_high))))` where every `up` is
the one shared learned module `up2`; moreover that module
(`ConvTranspose2d(1, 1, 4, 2, 1)`) is a 2× upsampling operator: its
output spatial size is exactly twice its input's. -/
theorem c6_decoder {τ : Type} (upsample upsample1 up2 : TenU → TenU)
    (resh : τ → TenU) (lde_c : TenU) (lde_t : τ)
    (rgb_h rgb_m depth_h depth_m : TenU) :
    decoderForward upsample upsample1 up2 resh lde_c lde_t
        rgb_h rgb_m depth_h depth_m =
      (up2 (up2 ((upsample lde_c + upsample1 (resh lde_t)) +
          up2 ((rgb_m + depth_m) + up2 (rgb_h + depth_h)))),
        upsample lde_c + upsample1 (resh lde_t),
        rgb_m + depth_m,
        rgb_h + depth_h) ∧
    (∀ x y : SA, convTranspose2dShape 1 1 4 2 1 0 x = some y →
      y.h = 2 * x.h ∧ y.w = 2 * x.w) := by
  constructor
  · rfl
  · intro x y hxy
    unfold convTranspose2dShape at hxy
    split at hxy
    · rename_i hcond
      obtain ⟨-, hh, hw, -, -⟩ := hcond
      injection hxy with h2
      rw [← h2]
      refine ⟨?_, ?_⟩
      · show (x.h - 1) * 2 + 4 + 0 - 2 * 1 = 2 * x.h
        omega
      · show (x.w - 1) * 2 + 4 + 0 - 2 * 1 = 2 * x.w
        omega
    · exact Option.noConfusion hxy

/-- C6 witness: the decoder equations at concrete operands (identity
operators and the zero tensor) and the 2× property of `up2` at the
concrete 20×20 high-resolution accumulator shape. -/
theorem c6_decoder_witness :
    decoderForward id id id id (0 : TenU) (0 : TenU) 0 0 0 0 =
      (id (id ((id (0 : TenU) + id (id (0 : TenU))) +
          id (((0 : TenU) + 0) + id ((0 : TenU) + 0)))),
        id (0 : TenU) + id (id (0 : TenU)), (0 : TenU) + 0,
        (0 : TenU) + 0) ∧
    SA.h ⟨1, 40, 40⟩ = 2 * SA.h ⟨1, 20, 20⟩ := by
  have h := c6_decoder id id id id (0 : TenU) (0 : TenU) 0 0 0 0
  exact ⟨h.1, (h.2 ⟨1, 20, 20⟩ ⟨1, 40, 40⟩ (by rfl)).1⟩

end Conformer

namespace Conformer

/-! ## Frame model of the LDE in-place q/k/v update, the partial weight
load, and the constructor-time configuration checks -/

/-- A real-valued 4-D attention tensor `[batch, heads, tokens, head_dim]`
as produced by `Attention.forward`. -/
abbrev Ten4Q (B Hd T D : Nat) : Type := Fin B → Fin Hd → Fin T → Fin D → ℝ

/-- A flattened index below `heads * head_dim` forces a positive head
dimension. -/
theorem posD_of_lt_mul {Hd D i : Nat} (hi : i < Hd * D) : 0 < D := by
  rcases Nat.eq_zero_or_pos D with h0 | h0
  · rw [h0, Nat.mul_zero] at hi
    exact absurd hi (Nat.not_lt_zero _)
  · exact h0

/-- The reshape `q[j].permute(0, 2, 1, 3).flatten(2)` of
`LDELayer.forward` (lines 522-524):
`[B, heads, tokens, head_dim] → [B, tokens, heads·head_dim]`; in
row-major order the flattened index `i` addresses head `i / head_dim`
and head coordinate `i % head_dim`. -/
def qkvFlatten {B Hd T D : Nat} (x : Ten4Q B Hd T D) :
    Ten3 B T (Hd * D) :=
  fun b t i =>
    x b
      ⟨i.val / D, by
        have hi := i.isLt
        exact Nat.div_lt_of_lt_mul
          (by rw [Nat.mul_comm D Hd]; exact hi)⟩
      t
      ⟨i.val % D, Nat.mod_lt _ (posD_of_lt_mul i.isLt)⟩

/-- An entry of the `q`, `k`, `v` lists of `JL_DCF.forward`: either the
raw `[B, heads, tokens, head_dim]` array appended by an encoder stage, or
the flattened `[B, tokens, heads·head_dim]` array that `LDELayer.forward`
writes back in place at index 4. -/
inductive QKVEntry (B Hd T D : Nat) where
  | raw : Ten4Q B Hd T D → QKVEntry B Hd T D
  | flat : Ten3 B T (Hd * D) → QKVEntry B Hd T D

/-- The in-place update `q[4] = q[4].permute(0, 2, 1, 3).flatten(2)` of
`LDELayer.forward`, as a function on the caller's list (the source
assumes the entry at index 4 is a raw stage output). -/
def ldeSetQKV {B Hd T D : Nat} (l : List (QKVEntry B Hd T D)) :
    List (QKVEntry B Hd T D) :=
  match l[4]? with
  | some (QKVEntry.raw x) => l.set 4 (QKVEntry.flat (qkvFlatten x))
  | _ => l

/-- The effect of `LDELayer.forward` (lines 500-531) on the five lists
the caller passes in: `list_x` and `list_y` are only read, while each of
`q`, `k`, `v` has exactly its index-4 entry replaced in place. -/
def ldeForwardLists {γ δ : Type} {B Hd T D : Nat}
    (listx : List γ) (listy : List δ)
    (q k v : List (QKVEntry B Hd T D)) :
    List γ × List δ × List (QKVEntry B Hd T D) ×
      List (QKVEntry B Hd T D) × List (QKVEntry B Hd T D) :=
  (listx, listy, ldeSetQKV q, ldeSetQKV k, ldeSetQKV v)

/-- When the entry at index 4 is raw, the LDE update is exactly a
positional `set` at index 4 with the flattened array. -/
theorem ldeSetQKV_eq_set {B Hd T D : Nat} (l : List (QKVEntry B Hd T D))
    (x : Ten4Q B Hd T D) (h : l[4]? = some (QKVEntry.raw x)) :
    ldeSetQKV l = l.set 4 (QKVEntry.flat (qkvFlatten x)) := by
  unfold ldeSetQKV
  rw [h]

/-- C10: `LDELayer.forward` mutates the attention-cache lists in place:
the entry at index 4 of each of `q`, `k`, `v` is replaced by the
`[batch, tokens, heads·head_dim]` reshape of the raw entry there, every
entry at any other index is unchanged, and the conv-feature and
token-sequence lists are exactly the caller's lists. -/
theorem c10_frame {γ δ : Type} {B Hd T D : Nat}
    (listx : List γ) (listy : List δ)
    (q k v : List (QKVEntry B Hd T D)) (tq tk tv : Ten4Q B Hd T D)
    (hq : q[4]? = some (QKVEntry.raw tq))
    (hk : k[4]? = some (QKVEntry.raw tk))
    (hv : v[4]? = some (QKVEntry.raw tv)) :
    (ldeForwardLists listx listy q k v).1 = listx ∧
    (ldeForwardLists listx listy q k v).2.1 = listy ∧
    (ldeForwardLists listx listy q k v).2.2.1[4]? =
      some (QKVEntry.flat (qkvFlatten tq)) ∧
    (ldeForwardLists listx listy q k v).2.2.2.1[4]? =
      some (QKVEntry.flat (qkvFlatten tk)) ∧
    (ldeForwardLists listx listy q k v).2.2.2.2[4]? =
      some (QKVEntry.flat (qkvFlatten tv)) ∧
    (∀ i, i ≠ 4 →
      (ldeForwardLists listx listy q k v).2.2.1[i]? = q[i]? ∧
      (ldeForwardLists listx listy q k v).2.2.2.1[i]? = k[i]? ∧
      (ldeForwardLists listx listy q k v).2.2.2.2[i]? = v[i]?) := by
  have h4 : ∀ (l : List (QKVEntry B Hd T D)) (t : Ten4Q B Hd T D),
      l[4]? = some (QKVEntry.raw t) →
      (ldeSetQKV l)[4]? = some (QKVEntry.flat (qkvFlatten t)) := by
    intro l t h
    rw [ldeSetQKV_eq_set l t h, List.getElem?_set_self', h]
    rfl
  have hne : ∀ (l : List (QKVEntry B Hd T D)) (t : Ten4Q B Hd T D)
      (i : Nat), i ≠ 4 → l[4]? = some (QKVEntry.raw t) →
      (ldeSetQKV l)[i]? = l[i]? := by
    intro l t i hi h
    rw [ldeSetQKV_eq_set l t h]
    exact List.getElem?_set_ne (Ne.symm hi)
  exact ⟨rfl, rfl, h4 q tq hq, h4 k tk hk, h4 v tv hv,
    fun i hi => ⟨hne q tq i hi hq, hne k tk i hi hk, hne v tv i hi hv⟩⟩

/-- All-zero raw attention array for the C10 witness. -/
noncomputable def zeroQ : Ten4Q 1 1 1 1 := fun _ _ _ _ => 0

/-- A five-entry raw q/k/v list for the C10 witness. -/
noncomputable def qList0 : List (QKVEntry 1 1 1 1) :=
  List.replicate 5 (QKVEntry.raw zeroQ)

/-- C10 witness: the frame theorem applied to concrete five-entry lists:
index 4 is flattened, index 0 is untouched. -/
theorem c10_frame_witness :
    (ldeForwardLists ([] : List Nat) ([] : List Nat)
      qList0 qList0 qList0).2.2.1[4]? =
        some (QKVEntry.flat (qkvFlatten zeroQ)) ∧
    (ldeForwardLists ([] : List Nat) ([] : List Nat)
      qList0 qList0 qList0).2.2.1[0]? = qList0[0]? := by
  have h := c10_frame ([] : List Nat) ([] : List Nat) qList0 qList0 qList0
    zeroQ zeroQ zeroQ rfl rfl rfl
  exact ⟨h.2.2.1, (h.2.2.2.2.2 0 (by decide)).1⟩

/-- `JLModule.load_pretrained_model` (lines 474-479) on name-indexed
parameter maps: the supplied dictionary is filtered to the names present
in the backbone's state dict (`ka in model_dict`), the state dict is
updated with the filtered entries, and the result is loaded back.  A
parameter map sends a (numeric stand-in for a) parameter name to `some`
value when the name is present. -/
def loadPretrainedModel (model_dict pretrained_dict : Nat → Option ℚ) :
    Nat → Option ℚ :=
  fun n =>
    match model_dict n with
    | none => none
    | some mv =>
      match pretrained_dict n with
      | some pv => some pv
      | none => some mv

/-- C8: the partial weight load overwrites exactly the internal
parameters whose names appear in the supplied dictionary; internal names
missing from it keep their prior value; supplied names with no internal
counterpart are ignored and create no parameter; and the load is
idempotent: loading the same source twice equals loading it once. -/
theorem c8_load (model_dict pretrained_dict : Nat → Option ℚ) :
    (∀ n pv, (model_dict n).isSome →
      pretrained_dict n = some pv →
      loadPretrainedModel model_dict pretrained_dict n = some pv) ∧
    (∀ n, pretrained_dict n = none →
      loadPretrainedModel model_dict pretrained_dict n = model_dict n) ∧
    (∀ n, model_dict n = none →
      loadPretrainedModel model_dict pretrained_dict n = none) ∧
    loadPretrainedModel (loadPretrainedModel model_dict pretrained_dict)
        pretrained_dict =
      loadPretrainedModel model_dict pretrained_dict := by
  refine ⟨?_, ?_, ?_, ?_⟩
  · intro n pv hm hp
    rcases hmd : model_dict n with _ | mv
    · rw [hmd] at hm
      simp at hm
    · simp only [loadPretrainedModel, hmd, hp]
  · intro n hp
    rcases hmd : model_dict n with _ | mv <;>
      simp only [loadPretrainedModel, hmd, hp]
  · intro n hm
    simp only [loadPretrainedModel, hm]
  · funext n
    rcases hmd : model_dict n with _ | mv <;>
      rcases hpd : pretrained_dict n with _ | pv <;>
      simp [loadPretrainedModel, hmd, hpd]

/-- Internal state dict for the C8 witness: parameters 0 and 1. -/
def modelDict0 : Nat → Option ℚ := fun n =>
  if n = 0 then some 1 else if n = 1 then some 2 else none

/-- Supplied weights for the C8 witness: parameter 0 (matching) and
parameter 2 (no internal counterpart). -/
def preDict0 : Nat → Option ℚ := fun n =>
  if n = 0 then some 5 else if n = 2 then some 7 else none

/-- C8 witness: on the concrete dictionaries, the matching parameter 0 is
overwritten, the missing parameter 1 keeps its value, the non-matching
name 2 is ignored, and reloading is idempotent. -/
theorem c8_load_witness :
    loadPretrainedModel modelDict0 preDict0 0 = some 5 ∧
    loadPretrainedModel modelDict0 preDict0 1 = modelDict0 1 ∧
    loadPretrainedModel modelDict0 preDict0 2 = none ∧
    loadPretrainedModel (loadPretrainedModel modelDict0 preDict0)
        preDict0 =
      loadPretrainedModel modelDict0 preDict0 := by
  have h := c8_load modelDict0 preDict0
  exact ⟨h.1 0 5 (by rfl) (by rfl), h.2.1 1 (by rfl),
    h.2.2.1 2 (by rfl), h.2.2.2⟩

/-- `torch.linspace(lo, hi, steps)` over the rationals: empty for 0
steps, `[lo]` for a single step, otherwise evenly spaced. -/
def linspace (lo hi : ℚ) (steps : Nat) : List ℚ :=
  if steps ≤ 1 then List.replicate steps lo
  else (List.range steps).map fun i : Nat =>
    lo + (hi - lo) * (i : ℚ) / ((steps : ℚ) - 1)

/-- Constructor-time failures of `Conformer.__init__`. -/
inductive InitError where
  /-- The `assert depth % 3 == 0` at line 320. -/
  | depthNotDivisibleBy3 : InitError
  /-- The read of `self.trans_dpr[0]` at line 343 on an empty schedule. -/
  | dropPathIndexOut : InitError
deriving DecidableEq, Repr

/-- The construction-time checks of `Conformer.__init__`, in source
order: `assert depth % 3 == 0` (line 320) runs first; then
`trans_dpr = torch.linspace(0, drop_path_rate, depth)` (line 323) is
built and `trans_dpr[0]` is read while constructing `trans_1` (line
343), which is an index error when `depth = 0`; on success the stage
table of the three loops is built. -/
def conformerInit (depth : Nat) (dropPathRate : ℚ) :
    Except InitError (List StageCfg) :=
  if depth % 3 ≠ 0 then Except.error InitError.depthNotDivisibleBy3
  else
    match (linspace 0 dropPathRate depth)[0]? with
    | none => Except.error InitError.dropPathIndexOut
    | some _ => Except.ok (stageConfigs depth)

/-- C9 counterexample: depth 0 is divisible by 3, yet construction does
not succeed — the divisibility assert passes but reading `trans_dpr[0]`
from the empty drop-path schedule fails.  So "for every depth divisible
by 3 construction succeeds" is false at depth 0. -/
theorem c9_counterexample :
    0 % 3 = 0 ∧
    conformerInit 0 0 = Except.error InitError.dropPathIndexOut := by
  exact ⟨rfl, rfl⟩

/-- C9 (amended): a depth not divisible by 3 is rejected at construction
time with the configuration error of the leading assert (before any
stage or forward machinery is touched), and for every positive depth
divisible by 3 construction succeeds; depth 0 alone passes the assert
but fails on the empty drop-path schedule. -/
theorem c9_amended (depth : Nat) (rate : ℚ) :
    (depth % 3 ≠ 0 →
      conformerInit depth rate =
        Except.error InitError.depthNotDivisibleBy3) ∧
    (depth % 3 = 0 → 0 < depth →
      conformerInit depth rate = Except.ok (stageConfigs depth)) := by
  constructor
  · intro h
    unfold conformerInit
    rw [if_pos h]
  · intro h3 hd
    unfold conformerInit
    rw [if_neg (by omega)]
    have hlen : (linspace 0 rate depth).length = depth := by
      unfold linspace
      split
      · rw [List.length_replicate]
      · rw [List.length_map, List.length_range]
    have hlt : 0 < (linspace 0 rate depth).length := by
      rw [hlen]
      exact hd
    rw [List.getElem?_eq_getElem hlt]

/-- C9 witness: the amended statement at depth 4 (rejected by the assert)
and at the reference depth 12 (construction succeeds). -/
theorem c9_amended_witness :
    conformerInit 4 0 = Except.error InitError.depthNotDivisibleBy3 ∧
    conformerInit 12 0 = Except.ok (stageConfigs 12) := by
  exact ⟨(c9_amended 4 0).1 (by decide),
    (c9_amended 12 0).2 (by decide) (by decide)⟩

end Conformer
